import Mathlib

/-!
Shallow embedding of the Cool-Chic repository files
`src/coolchic/enc/utils/parsecli.py` and `src/coolchic/hypernet/finetune.py`.

Python strings are `String`, Python ints are `Int` (no arithmetic overflows
occur: the code only parses, compares and stores them), Python lists are
`List`, Python dicts with a fixed key set are structures, and fallible code
(assert failures, ValueError, IndexError) returns `Except ConfigError`.
Paths are modelled by their string representation with `/` separators;
`pathName`, `pathStem`, `pathSuffix` and `parentDir` mirror
`pathlib.PurePath.name/.stem/.suffix/.parent` for such strings.
-/

namespace CoolChic

/-- Error values of the pipeline.  The specification groups every eager
parse-time failure under the name ConfigError; the constructors record which
Python exception class the source raises (`assert` → AssertionError,
`int(...)` → ValueError, `list[0]` on an empty list → IndexError,
`pandas.concat` on an empty list → ValueError). -/
inductive ConfigError where
  | assertionError (msg : String)
  | valueError (msg : String)
  | indexError (msg : String)

deriving instance DecidableEq, Repr for ConfigError

/-- Helper for `pySplit`: walk the characters, cutting at each separator. -/
def pySplitAux (sep : Char) : List Char → List Char → List String
  | [], acc => [String.mk acc.reverse]
  | c :: cs, acc =>
    if c == sep then String.mk acc.reverse :: pySplitAux sep cs []
    else pySplitAux sep cs (c :: acc)

/-- Python's `s.split(sep)` for a one-character separator (the only form the
two source files use): splitting the empty string yields `[""]`, and empty
fields between consecutive separators are kept. -/
def pySplit (s : String) (sep : Char) : List String := pySplitAux sep s.data []

/-- Whitespace test used by `pyStrip`. -/
def isSpaceChar (c : Char) : Bool := c == ' ' || c == '\t' || c == '\n' || c == '\r'

/-- Python's `str.strip()` (the whitespace stripping `int(...)` performs). -/
def pyStrip (s : String) : String :=
  String.mk (((s.data.dropWhile isSpaceChar).reverse.dropWhile isSpaceChar).reverse)

/-- Value of a digit list, most significant first (all chars are digits). -/
def digitsToNat (l : List Char) : Nat :=
  l.foldl (fun acc c => acc * 10 + (c.toNat - 48)) 0

/-- Helper for `pyInt`: the characters after the optional sign must be a
non-empty run of decimal digits. -/
def pyIntDigits (sign : Int) (cs : List Char) (orig : String) : Except ConfigError Int :=
  if !cs.isEmpty && cs.all Char.isDigit then
    .ok (sign * (digitsToNat cs : Int))
  else
    .error (.valueError ("invalid literal for int with base 10: " ++ orig))

/-- Python's `int(...)` on a string: surrounding whitespace is stripped, an
optional single sign is followed by decimal digits; anything else raises
ValueError. -/
def pyInt (s : String) : Except ConfigError Int :=
  match (pyStrip s).data with
  | '-' :: cs => pyIntDigits (-1) cs s
  | '+' :: cs => pyIntDigits 1 cs s
  | cs => pyIntDigits 1 cs s

/-- Embeds `_parse_synthesis_layers` (parsecli.py:17): split on commas, drop
empty tokens, assert the result is non-empty. -/
def _parse_synthesis_layers (layers_synthesis : String) : Except ConfigError (List String) :=
  if ((pySplit layers_synthesis ',').filter (fun x => x != "")) = [] then
    .error (.assertionError "Synthesis should have at least one layer, found nothing.")
  else
    .ok ((pySplit layers_synthesis ',').filter (fun x => x != ""))

/-- Result dictionary of `_parse_arm_archi`. -/
structure ArmParam where
  dim_arm : Int
  n_hidden_layers_arm : Int

deriving instance DecidableEq, Repr for ArmParam

/-- Embeds `_parse_arm_archi` (parsecli.py:40): assert that splitting on a
comma yields exactly two tokens, then parse both as ints (the first failing
`int(...)` raises, left to right). -/
def _parse_arm_archi (arm : String) : Except ConfigError ArmParam :=
  if (pySplit arm ',').length ≠ 2 then
    .error (.assertionError "--arm format should be X,Y")
  else
    match pySplit arm ',' with
    | [a, b] =>
      match pyInt a with
      | .error e => .error e
      | .ok dim_arm =>
        match pyInt b with
        | .error e => .error e
        | .ok n_hidden_layers_arm => .ok ⟨dim_arm, n_hidden_layers_arm⟩
    | _ => .error (.assertionError "--arm format should be X,Y")

/-- Python's `[int(x) for x in l]`: parse each token, raising at the first
failure. -/
def pyIntList : List String → Except ConfigError (List Int)
  | [] => .ok []
  | x :: xs =>
    match pyInt x with
    | .error e => .error e
    | .ok v =>
      match pyIntList xs with
      | .error e => .error e
      | .ok vs => .ok (v :: vs)

/-- Embeds `_parse_n_ft_per_res` (parsecli.py:57): split on commas, drop empty
tokens, parse each as int, then assert `set(values) == {1}` — that is, the
list is non-empty and every element equals 1. -/
def _parse_n_ft_per_res (n_ft_per_res : String) : Except ConfigError (List Int) :=
  match pyIntList ((pySplit n_ft_per_res ',').filter (fun x => x != "")) with
  | .error e => .error e
  | .ok vals =>
    if vals ≠ [] ∧ ∀ v ∈ vals, v = 1 then
      .ok vals
    else
      .error (.assertionError "--n_ft_per_res should only contains 1")

/-- Index of the last occurrence of a character in a list, if any. -/
def rfindChar : List Char → Char → Option Nat
  | [], _ => none
  | c :: cs, t =>
    match rfindChar cs t with
    | some i => some (i + 1)
    | none => if c == t then some 0 else none

/-- Final component of a `/`-separated path string (`pathlib.PurePath.name`). -/
def pathName (p : String) : String :=
  match (pySplit p '/').getLast? with
  | some n => n
  | none => p

/-- The suffix of a file name, as `pathlib` computes it: the part of the name
from its last dot on, provided that dot is neither the first nor the last
character; otherwise the empty string. -/
def suffixOfName (name : String) : String :=
  match rfindChar name.data '.' with
  | some i =>
    if 0 < i ∧ i < name.data.length - 1 then String.mk (name.data.drop i) else ""
  | none => ""

/-- The stem of a file name, as `pathlib` computes it: the name with its
suffix removed. -/
def stemOfName (name : String) : String :=
  match rfindChar name.data '.' with
  | some i =>
    if 0 < i ∧ i < name.data.length - 1 then String.mk (name.data.take i) else name
  | none => name

/-- Models `pathlib.PurePath.suffix` on a path string. -/
def pathSuffix (p : String) : String := suffixOfName (pathName p)

/-- Models `pathlib.PurePath.stem` on a path string. -/
def pathStem (p : String) : String := stemOfName (pathName p)

/-- Models `pathlib.PurePath.parent` on a path string (a single-component
path has parent `"."`). -/
def parentDir (p : String) : String :=
  if (pySplit p '/').length ≤ 1 then "."
  else String.intercalate "/" ((pySplit p '/').dropLast)

/-- Python's `str.capitalize()`: first character uppercased, the rest
lowercased. -/
def pyCapitalize (s : String) : String :=
  match s.data with
  | [] => ""
  | c :: cs => String.mk (c.toUpper :: cs.map Char.toLower)

/-- The extension list of `_is_image` (parsecli.py:102). -/
def possible_file_extension : List String := ["png", "jpeg", "jpg", "ppm"]

/-- Embeds `_is_image` (parsecli.py:92): for each candidate extension the
source compares the path suffix with `.ext` and with `.Ext` (Python
`str.capitalize`), returning True on the first match. -/
def _is_image (file_path : String) : Bool :=
  possible_file_extension.any (fun ext =>
    pathSuffix file_path == "." ++ ext || pathSuffix file_path == "." ++ pyCapitalize ext)

/-- Lowercasing of a string, character by character. -/
def lowerString (s : String) : String := String.mk (s.data.map Char.toLower)

/-- The image-extension predicate as the specification words it (for
comparison with `_is_image`, which is the translation of the source): a path
is an image when its suffix matches one of png/jpeg/jpg/ppm
case-insensitively. -/
def spec_is_image_ci (file_path : String) : Bool :=
  possible_file_extension.any (fun ext =>
    lowerString (pathSuffix file_path) == "." ++ ext)

/-- The `intra_period`/`p_period` slice of `RunConfig.enc_cfg`. -/
structure EncoderConfig where
  intra_period : Int
  p_period : Int

deriving instance DecidableEq, Repr for EncoderConfig

/-- The slice of `RunConfig` read by `get_coding_structure_from_args`:
the input path and the encoder configuration. -/
structure RunConfig where
  input : String
  enc_cfg : EncoderConfig

deriving instance DecidableEq, Repr for RunConfig

/-- The dictionary returned by `get_coding_structure_from_args`. -/
structure CodingStructureConfig where
  intra_period : Int
  p_period : Int
  seq_name : String

deriving instance DecidableEq, Repr for CodingStructureConfig

/-- Embeds `get_coding_structure_from_args` (parsecli.py:115): both periods
must lie in [0, 255]; when the input path is an image per `_is_image`, both
must be 0; on success the returned dictionary carries both periods and the
input path's stem as `seq_name`. -/
def get_coding_structure_from_args (config : RunConfig) : Except ConfigError CodingStructureConfig :=
  if ¬ (config.enc_cfg.intra_period ≥ 0 ∧ config.enc_cfg.intra_period ≤ 255) then
    .error (.assertionError "Intra period should be in [0, 255].")
  else if ¬ (config.enc_cfg.p_period ≥ 0 ∧ config.enc_cfg.p_period ≤ 255) then
    .error (.assertionError "P period should be in [0, 255].")
  else if _is_image config.input = true ∧
      ¬ (config.enc_cfg.intra_period = 0 ∧ config.enc_cfg.p_period = 0) then
    .error (.assertionError
      "Encoding a PNG, JPEG or PPM image must be done with intra_period = 0 and p_period = 0.")
  else
    .ok ⟨config.enc_cfg.intra_period, config.enc_cfg.p_period, pathStem config.input⟩

/-- Embeds `get_coolchic_param_from_args` (parsecli.py:77): the slice of
`DecoderConfig` it copies into the `CoolChicEncoderParameter` constructor
arguments. -/
structure DecoderConfig where
  parsed_layers_synthesis : List String
  parsed_n_ft_per_res : List Int
  ups_k_size : Nat
  ups_preconcat_k_size : Nat
  dim_arm : Int
  n_hidden_layers_arm : Int
  encoder_gain : Nat

deriving instance DecidableEq, Repr for DecoderConfig

/-- The dictionary returned by `get_coolchic_param_from_args`. -/
structure CoolChicParam where
  layers_synthesis : List String
  n_ft_per_res : List Int
  ups_k_size : Nat
  ups_preconcat_k_size : Nat
  dim_arm : Int
  n_hidden_layers_arm : Int
  encoder_gain : Nat

deriving instance DecidableEq, Repr for CoolChicParam

/-- Embeds `get_coolchic_param_from_args` (parsecli.py:77). -/
def get_coolchic_param_from_args (config : DecoderConfig) : CoolChicParam :=
  { layers_synthesis := config.parsed_layers_synthesis
    n_ft_per_res := config.parsed_n_ft_per_res
    ups_k_size := config.ups_k_size
    ups_preconcat_k_size := config.ups_preconcat_k_size
    dim_arm := config.dim_arm
    n_hidden_layers_arm := config.n_hidden_layers_arm
    encoder_gain := config.encoder_gain }

/-- A `CoolChicEncoderParameter`: the constructor arguments plus the image
size set later by `set_image_size`. -/
structure CoolChicEncoderParameter where
  param : CoolChicParam
  img_size : Option (Nat × Nat)

deriving instance DecidableEq, Repr for CoolChicEncoderParameter

/-- Models `CoolChicEncoderParameter.set_image_size`. -/
def CoolChicEncoderParameter.set_image_size
    (p : CoolChicEncoderParameter) (s : Nat × Nat) : CoolChicEncoderParameter :=
  { p with img_size := some s }

/-- One `TrainerPhase` (the fields read and written by finetune.py).
Learning-rate-like floats are modelled as rationals: the code only stores and
forwards them; no arithmetic is performed on them here. -/
structure TrainerPhase where
  lr : Rat
  end_lr : Option Rat
  schedule_lr : Bool
  max_itr : Int
  freq_valid : Nat
  patience : Nat
  optimized_module : List String
  quantizer_type : String
  quantizer_noise_type : String
  softround_temperature : Rat × Rat
  noise_parameter : Rat × Rat
  quantize_model : Bool

deriving instance DecidableEq, Repr for TrainerPhase

/-- The `Warmup` record (none of its fields is read by finetune.py). -/
structure Warmup where

deriving instance DecidableEq, Repr for Warmup

/-- A `PresetConfig`: preset name, warmup and the list of training phases.
`finetune_all` mutates `all_phases[0].max_itr` in place; the embedding passes
the preset as explicit state. -/
structure PresetConfig where
  preset_name : String
  warmup : Warmup
  all_phases : List TrainerPhase

deriving instance DecidableEq, Repr for PresetConfig

/-- A frame as finetune.py sees it: the mutable `seq_name` attribute plus the
rest of the object, opaque to this file. -/
structure Frame (P : Type) where
  seq_name : String
  payload : P

/-- The three classes accepted by `get_wholenet_class` (finetune.py:229). -/
inductive WholeNetCls where
  | CoolchicWholeNet
  | DeltaWholeNet
  | NOWholeNet

deriving instance DecidableEq, Repr for WholeNetCls

/-- The slice of `HypernetRunConfig.hypernet_cfg` read by finetune.py. -/
structure HypernetConfig (H : Type) where
  dec_cfg : DecoderConfig
  rest : H

/-- The slice of `HypernetRunConfig` read by finetune.py. -/
structure HypernetRunConfig (H : Type) where
  lmbda : Rat
  hypernet_cfg : HypernetConfig H

/-- The external collaborators of finetune.py (image IO, the training loop,
the quantizer, the evaluator, checkpoint loading, ...).  They live outside
the two repository files, so the embedding abstracts each one as an opaque
function over opaque types; the claims proved below hold for every choice of
these collaborators. -/
structure FinetuneDeps where
  FrameData : Type
  Tensor : Type
  Device : Type
  FramePayload : Type
  Manager : Type
  FrameEnc : Type
  Logs : Type
  Metrics : Type
  Row : Type
  CCEnc : Type
  Img : Type
  Hypernet : Type
  HRest : Type
  load_frame_data_from_file : String → Nat → FrameData
  frame_data_data : FrameData → Tensor
  get_best_device : Device
  tensor_to_device : Tensor → Device → Tensor
  get_coolchic_structs :
    Rat → PresetConfig → DecoderConfig → CCEnc → FrameData →
      Frame FramePayload × Manager × FrameEnc
  frame_to_device : Frame FramePayload → Device → Frame FramePayload
  frame_enc_to_device : FrameEnc → Device → FrameEnc
  coolchic_train :
    FrameEnc → Frame FramePayload → Manager → Rat → Rat → Bool → Int → Nat → Nat →
      List String → String → String → Rat × Rat → Rat × Rat → FrameEnc
  quantize_model : FrameEnc → Frame FramePayload → Manager → FrameEnc
  test : FrameEnc → Frame FramePayload → Manager → Logs
  log_to_results : Logs → String → Metrics
  model_dump : Metrics → Row
  read_png : String → Img
  img_shape_hw : Img → Nat × Nat
  image_to_coolchic : Hypernet → Img → Bool → CCEnc
  mk_coolchic_encoder : CoolChicEncoderParameter → CCEnc
  load_config : String → HypernetRunConfig HRest
  get_latest_checkpoint : String → String
  load_hypernet : String → HypernetRunConfig HRest → WholeNetCls → Hypernet
  eval_mode : Hypernet → Hypernet

/-- Embeds `finetune_coolchic` (finetune.py:48): load the frame data, build
the auxiliary structures, set the frame's sequence name, move everything to
the device, run one training phase (`all_phases[0]`, whose `end_lr` must be
set), quantize the trained encoder, evaluate it, and return the single
resulting metrics record. -/
def finetune_coolchic (D : FinetuneDeps) (img_path : String)
    (preset_config : PresetConfig) (cc_encoder : D.CCEnc) (lmbda : Rat)
    (dec_cfg : DecoderConfig) : Except ConfigError (List D.Metrics) :=
  let frame_data := D.load_frame_data_from_file img_path 0
  let device := D.get_best_device
  let _img := D.tensor_to_device (D.frame_data_data frame_data) device
  match D.get_coolchic_structs lmbda preset_config dec_cfg cc_encoder frame_data with
  | (frame0, frame_encoder_manager, frame_enc0) =>
    let frame := D.frame_to_device { frame0 with seq_name := pathStem img_path } device
    let frame_enc := D.frame_enc_to_device frame_enc0 device
    match preset_config.all_phases with
    | [] => .error (.indexError "list index out of range")
    | training_phase :: _ =>
      match training_phase.end_lr with
      | none => .error (.assertionError "end_lr must not be None")
      | some end_lr =>
        let trained_encoder :=
          D.coolchic_train frame_enc frame frame_encoder_manager
            training_phase.lr end_lr training_phase.schedule_lr
            training_phase.max_itr training_phase.freq_valid training_phase.patience
            training_phase.optimized_module training_phase.quantizer_type
            training_phase.quantizer_noise_type training_phase.softround_temperature
            training_phase.noise_parameter
        let trained_encoder := D.quantize_model trained_encoder frame frame_encoder_manager
        let logs := D.test trained_encoder frame frame_encoder_manager
        let metrics := D.log_to_results logs (pathStem img_path)
        .ok [metrics]

/-- Embeds `finetune_one_kodak` (finetune.py:105): from scratch, a fresh
encoder is built from the decoder config sized to the image; otherwise the
hypernet predicts the encoder; either way `finetune_coolchic` runs on it. -/
def finetune_one_kodak (D : FinetuneDeps) (image : String)
    (preset_config : PresetConfig) (hypernet : D.Hypernet) (dec_cfg : DecoderConfig)
    (lmbda : Rat) (from_scratch : Bool) : Except ConfigError (List D.Metrics) :=
  let cc_encoder :=
    if from_scratch then
      let coolchic_encoder_parameter : CoolChicEncoderParameter :=
        { param := get_coolchic_param_from_args dec_cfg, img_size := none }
      let img := D.read_png image
      D.mk_coolchic_encoder
        (coolchic_encoder_parameter.set_image_size (D.img_shape_hw img))
    else
      let img := D.read_png image
      D.image_to_coolchic hypernet img true
  finetune_coolchic D image preset_config cc_encoder lmbda dec_cfg

/-- Models `preset.all_phases[0].max_itr = n_iter` (finetune.py:160); Python
raises IndexError when `all_phases` is empty. -/
def set_phase0_max_itr (preset : PresetConfig) (n_iter : Int) :
    Except ConfigError PresetConfig :=
  match preset.all_phases with
  | [] => .error (.indexError "list index out of range")
  | ph :: rest => .ok { preset with all_phases := { ph with max_itr := n_iter } :: rest }

/-- Inner loop of `finetune_all` over the iteration budgets for one image:
each pass overwrites the first phase's `max_itr`, runs the per-image runner,
and appends the one-invocation table `[log.model_dump() for log in finetuned]`.
The mutated preset is threaded as state. -/
def run_budgets (D : FinetuneDeps) (hnet : D.Hypernet) (dec_cfg : DecoderConfig)
    (lmbda : Rat) (from_scratch : Bool) (image : String) :
    List Int → PresetConfig → Except ConfigError (List (List D.Row) × PresetConfig)
  | [], preset => .ok ([], preset)
  | n_iter :: more, preset =>
    match set_phase0_max_itr preset n_iter with
    | .error e => .error e
    | .ok preset1 =>
      match finetune_one_kodak D image preset1 hnet dec_cfg lmbda from_scratch with
      | .error e => .error e
      | .ok finetuned =>
        match run_budgets D hnet dec_cfg lmbda from_scratch image more preset1 with
        | .error e => .error e
        | .ok (tables, preset2) => .ok ((finetuned.map D.model_dump) :: tables, preset2)

/-- Outer loop of `finetune_all` over the dataset's images. -/
def run_images (D : FinetuneDeps) (hnet : D.Hypernet) (dec_cfg : DecoderConfig)
    (lmbda : Rat) (from_scratch : Bool) :
    List String → List Int → PresetConfig →
      Except ConfigError (List (List D.Row) × PresetConfig)
  | [], _, preset => .ok ([], preset)
  | image :: more, n_iterations, preset =>
    match run_budgets D hnet dec_cfg lmbda from_scratch image n_iterations preset with
    | .error e => .error e
    | .ok (tables1, preset1) =>
      match run_images D hnet dec_cfg lmbda from_scratch more n_iterations preset1 with
      | .error e => .error e
      | .ok (tables2, preset2) => .ok (tables1 ++ tables2, preset2)

/-- Models `pandas.concat` on a list of tables: it raises
`ValueError("No objects to concatenate")` on an empty list and otherwise
stacks the rows in order. -/
def pd_concat {Row : Type} (tables : List (List Row)) : Except ConfigError (List Row) :=
  if tables.isEmpty then .error (.valueError "No objects to concatenate")
  else .ok tables.flatten

/-- Embeds `finetune_all` (finetune.py:138): load the run config, resolve a
`__latest` checkpoint sentinel, load the hypernet and put it in eval mode,
then for every dataset image and every iteration budget override
`all_phases[0].max_itr` and invoke the per-image runner once, finally
concatenating all per-invocation tables.  `dataset_images` stands for the
listing `(DATA_DIR / dataset).glob("*.png")`; the preset, mutated in place by
the source, is threaded as state and the final value is returned. -/
def finetune_all (D : FinetuneDeps) (preset : PresetConfig) (from_scratch : Bool)
    (weights_path : String) (config_path : String) (wholenet_cls : WholeNetCls)
    (dataset_images : List String) (n_iterations : List Int) :
    Except ConfigError (List D.Row × PresetConfig) :=
  let cfg := D.load_config config_path
  let weights_path1 :=
    if pathStem weights_path = "__latest" then D.get_latest_checkpoint (parentDir weights_path)
    else weights_path
  let hnet := D.eval_mode (D.load_hypernet weights_path1 cfg wholenet_cls)
  match run_images D hnet cfg.hypernet_cfg.dec_cfg cfg.lmbda from_scratch
      dataset_images n_iterations preset with
  | .error e => .error e
  | .ok (all_finetuned, preset1) =>
    match pd_concat all_finetuned with
    | .error e => .error e
    | .ok table => .ok (table, preset1)

/-- Embeds `get_wholenet_class` (finetune.py:229): a Python `match` on the
string, which is a sequence of equality tests; every unrecognized name raises
ValueError. -/
def get_wholenet_class (wholenet_cls : String) : Except ConfigError WholeNetCls :=
  if wholenet_cls = "CoolchicWholeNet" then .ok .CoolchicWholeNet
  else if wholenet_cls = "DeltaWholeNet" then .ok .DeltaWholeNet
  else if wholenet_cls = "NOWholeNet" then .ok .NOWholeNet
  else .error (.valueError ("Invalid WholeNet class. Got " ++ wholenet_cls ++ "."))

/-- Embeds the `__main__` sequence of finetune.py relevant to model-variant
resolution: `get_wholenet_class(args.wholenet_cls)` runs first and only then
is `finetune_all` (which loads the checkpoint and trains) invoked. -/
def main_run (D : FinetuneDeps) (wholenet_cls_arg : String) (preset : PresetConfig)
    (from_scratch : Bool) (weight_path : String) (config_path : String)
    (dataset_images : List String) (n_iterations : List Int) :
    Except ConfigError (List D.Row × PresetConfig) :=
  match get_wholenet_class wholenet_cls_arg with
  | .error e => .error e
  | .ok cls =>
    finetune_all D preset from_scratch weight_path config_path cls
      dataset_images n_iterations

/-- The (image, budget) pairs in the order `finetune_all` visits them:
images outermost, budgets innermost in the given order. -/
def image_budget_pairs (images : List String) (budgets : List Int) : List (String × Int) :=
  images.flatMap (fun image => budgets.map (fun b => (image, b)))

/-- The first training phase with its `max_itr` field overwritten. -/
def phase_with_max_itr (ph : TrainerPhase) (b : Int) : TrainerPhase :=
  { ph with max_itr := b }

/-- A preset whose first phase is `ph` with `max_itr := b`. -/
def preset_with (pname : String) (warm : Warmup) (ph : TrainerPhase)
    (rest : List TrainerPhase) (b : Int) : PresetConfig :=
  ⟨pname, warm, phase_with_max_itr ph b :: rest⟩

/-- The metrics record of the final (post-quantization) evaluation computed by
the success path of `finetune_coolchic`: train with the first phase's
parameters, quantize, test, convert the log to a result record named by the
image stem. -/
def final_eval_metrics (D : FinetuneDeps) (img_path : String)
    (preset_config : PresetConfig) (cc_encoder : D.CCEnc) (lmbda : Rat)
    (dec_cfg : DecoderConfig) (training_phase : TrainerPhase) (end_lr : Rat) : D.Metrics :=
  let frame_data := D.load_frame_data_from_file img_path 0
  let device := D.get_best_device
  match D.get_coolchic_structs lmbda preset_config dec_cfg cc_encoder frame_data with
  | (frame0, frame_encoder_manager, frame_enc0) =>
    let frame := D.frame_to_device { frame0 with seq_name := pathStem img_path } device
    let frame_enc := D.frame_enc_to_device frame_enc0 device
    let trained_encoder :=
      D.coolchic_train frame_enc frame frame_encoder_manager
        training_phase.lr end_lr training_phase.schedule_lr
        training_phase.max_itr training_phase.freq_valid training_phase.patience
        training_phase.optimized_module training_phase.quantizer_type
        training_phase.quantizer_noise_type training_phase.softround_temperature
        training_phase.noise_parameter
    D.log_to_results
      (D.test (D.quantize_model trained_encoder frame frame_encoder_manager)
        frame frame_encoder_manager)
      (pathStem img_path)

/-- The encoder `finetune_one_kodak` trains: built from the decoder config
alone when training from scratch, predicted by the hypernet otherwise. -/
def encoder_for (D : FinetuneDeps) (hypernet : D.Hypernet) (dec_cfg : DecoderConfig)
    (from_scratch : Bool) (image : String) : D.CCEnc :=
  if from_scratch then
    D.mk_coolchic_encoder
      (CoolChicEncoderParameter.set_image_size
        { param := get_coolchic_param_from_args dec_cfg, img_size := none }
        (D.img_shape_hw (D.read_png image)))
  else
    D.image_to_coolchic hypernet (D.read_png image) true

/-- The run configuration `finetune_all` loads. -/
def loaded_cfg (D : FinetuneDeps) (config_path : String) : HypernetRunConfig D.HRest :=
  D.load_config config_path

/-- The checkpoint path after `finetune_all` resolves the `__latest`
sentinel. -/
def resolved_weights (D : FinetuneDeps) (weights_path : String) : String :=
  if pathStem weights_path = "__latest" then D.get_latest_checkpoint (parentDir weights_path)
  else weights_path

/-- The hypernet `finetune_all` loads and switches to eval mode. -/
def loaded_hnet (D : FinetuneDeps) (weights_path config_path : String)
    (cls : WholeNetCls) : D.Hypernet :=
  D.eval_mode (D.load_hypernet (resolved_weights D weights_path)
    (loaded_cfg D config_path) cls)

/-- The single table row produced by one runner invocation on the pair
`(image, budget)`: the dumped final-evaluation metrics of the run whose first
phase has `max_itr := budget`. -/
def runner_row (D : FinetuneDeps) (hnet : D.Hypernet) (dec_cfg : DecoderConfig)
    (lmbda : Rat) (from_scratch : Bool) (pname : String) (warm : Warmup)
    (ph : TrainerPhase) (rest : List TrainerPhase) (elr : Rat)
    (p : String × Int) : D.Row :=
  D.model_dump
    (final_eval_metrics D p.1 (preset_with pname warm ph rest p.2)
      (encoder_for D hnet dec_cfg from_scratch p.1) lmbda dec_cfg
      (phase_with_max_itr ph p.2) elr)

/-- A concrete decoder configuration, used by the witness instances. -/
def sampleDecCfg : DecoderConfig :=
  ⟨["32-1-linear-relu", "X-1-linear-none"], [1, 1, 1], 8, 7, 8, 2, 16⟩

/-- The `TrainerPhase` built in finetune.py's `__main__` block (its float
literals written as rationals). -/
def samplePhase : TrainerPhase :=
  { lr := 5 / 1000
    end_lr := some (1 / 100000)
    schedule_lr := true
    max_itr := -1
    freq_valid := 100
    patience := 100
    optimized_module := ["all"]
    quantizer_type := "softround"
    quantizer_noise_type := "gaussian"
    softround_temperature := (3 / 10, 1 / 10)
    noise_parameter := (1 / 4, 1 / 10)
    quantize_model := true }

/-- The `PresetConfig` built in finetune.py's `__main__` block. -/
def samplePreset : PresetConfig := ⟨"", ⟨⟩, [samplePhase]⟩

/-- A trivial instantiation of the external collaborators, used by the
witness instances to evaluate the orchestration on concrete inputs. -/
def unitDeps : FinetuneDeps where
  FrameData := Unit
  Tensor := Unit
  Device := Unit
  FramePayload := Unit
  Manager := Unit
  FrameEnc := Unit
  Logs := Unit
  Metrics := Unit
  Row := Unit
  CCEnc := Unit
  Img := Unit
  Hypernet := Unit
  HRest := Unit
  load_frame_data_from_file := fun _ _ => ()
  frame_data_data := fun _ => ()
  get_best_device := ()
  tensor_to_device := fun _ _ => ()
  get_coolchic_structs := fun _ _ _ _ _ => (⟨"", ()⟩, (), ())
  frame_to_device := fun f _ => f
  frame_enc_to_device := fun e _ => e
  coolchic_train := fun _ _ _ _ _ _ _ _ _ _ _ _ _ _ => ()
  quantize_model := fun _ _ _ => ()
  test := fun _ _ _ => ()
  log_to_results := fun _ _ => ()
  model_dump := fun _ => ()
  read_png := fun _ => ()
  img_shape_hw := fun _ => (512, 768)
  image_to_coolchic := fun _ _ _ => ()
  mk_coolchic_encoder := fun _ => ()
  load_config := fun _ => ⟨1, ⟨sampleDecCfg, ()⟩⟩
  get_latest_checkpoint := fun p => p
  load_hypernet := fun _ _ _ => ()
  eval_mode := fun h => h

/-! ### Helper lemmas -/

theorem pyCapitalize_png : pyCapitalize "png" = "Png" := rfl

theorem pyCapitalize_jpeg : pyCapitalize "jpeg" = "Jpeg" := rfl

theorem pyCapitalize_jpg : pyCapitalize "jpg" = "Jpg" := rfl

theorem pyCapitalize_ppm : pyCapitalize "ppm" = "Ppm" := rfl

theorem dot_append_png : "." ++ "png" = ".png" := rfl

theorem dot_append_Png : "." ++ "Png" = ".Png" := rfl

theorem dot_append_jpeg : "." ++ "jpeg" = ".jpeg" := rfl

theorem dot_append_Jpeg : "." ++ "Jpeg" = ".Jpeg" := rfl

theorem dot_append_jpg : "." ++ "jpg" = ".jpg" := rfl

theorem dot_append_Jpg : "." ++ "Jpg" = ".Jpg" := rfl

theorem dot_append_ppm : "." ++ "ppm" = ".ppm" := rfl

theorem dot_append_Ppm : "." ++ "Ppm" = ".Ppm" := rfl

/-! ### Claim theorems about the CLI parsers (parsecli.py) -/

/-- C6: for every comma-separated string with at least one non-empty token,
`_parse_synthesis_layers` returns exactly the non-empty tokens in input order
(hence with length equal to their count); on the empty string it fails with
ConfigError.  A concrete two-token instance is included. -/
theorem synthesis_layers_spec :
    (∀ s : String, ((pySplit s ',').filter (fun x => x != "")) ≠ [] →
      _parse_synthesis_layers s = .ok ((pySplit s ',').filter (fun x => x != ""))) ∧
    (∃ e, _parse_synthesis_layers "" = .error e) ∧
    _parse_synthesis_layers "32-1-linear-relu,X-1-linear-none" =
      .ok ["32-1-linear-relu", "X-1-linear-none"] := by
  refine ⟨fun s hne => ?_, ⟨_, rfl⟩, rfl⟩
  simp [_parse_synthesis_layers, hne]

/-- C5: `_parse_arm_archi` fails with ConfigError unless splitting on the
comma yields exactly two integer-parseable tokens; when it does, it returns
the two parsed integers as `dim_arm` and `n_hidden_layers_arm`.  In
particular `"8,2"` parses to ⟨8, 2⟩ and `"8,2,1"` fails. -/
theorem arm_archi_spec :
    (∀ arm : String,
      (¬ ∃ a b, pySplit arm ',' = [a, b] ∧ (∃ x, pyInt a = .ok x) ∧ (∃ y, pyInt b = .ok y)) →
      ∃ e, _parse_arm_archi arm = .error e) ∧
    (∀ (arm a b : String) (x y : Int), pySplit arm ',' = [a, b] →
      pyInt a = .ok x → pyInt b = .ok y → _parse_arm_archi arm = .ok ⟨x, y⟩) ∧
    _parse_arm_archi "8,2" = .ok ⟨8, 2⟩ ∧
    (∃ e, _parse_arm_archi "8,2,1" = .error e) := by
  refine ⟨?_, ?_, rfl, ⟨_, rfl⟩⟩
  · intro arm hnot
    rcases hs : pySplit arm ',' with _ | ⟨a, _ | ⟨b, _ | ⟨c, t⟩⟩⟩
    · exact ⟨ConfigError.assertionError "--arm format should be X,Y",
        by simp [_parse_arm_archi, hs]⟩
    · exact ⟨ConfigError.assertionError "--arm format should be X,Y",
        by simp [_parse_arm_archi, hs]⟩
    · rcases hx : pyInt a with e | x
      · exact ⟨e, by simp [_parse_arm_archi, hs, hx]⟩
      · rcases hy : pyInt b with e | y
        · exact ⟨e, by simp [_parse_arm_archi, hs, hx, hy]⟩
        · exact absurd ⟨a, b, hs, ⟨x, hx⟩, ⟨y, hy⟩⟩ hnot
    · have hlen : (a :: b :: c :: t).length ≠ 2 := by
        simp [List.length_cons]
      refine ⟨ConfigError.assertionError "--arm format should be X,Y", ?_⟩
      unfold _parse_arm_archi
      rw [hs, if_pos hlen]
  · intro arm a b x y hs hx hy
    simp [_parse_arm_archi, hs, hx, hy]

/-- C7 (amended): `_parse_n_ft_per_res` succeeds exactly when its non-empty
tokens all parse as integers, at least one token is present, and every
parsed value is 1 — with no tokens the `set(...) == {1}` assertion fails as
well.  `"1,1,1"` parses to [1,1,1] and `"1,2,1"` fails. -/
theorem n_ft_per_res_spec :
    (∀ (s : String) (l : List Int),
      _parse_n_ft_per_res s = .ok l ↔
        (pyIntList ((pySplit s ',').filter (fun x => x != "")) = .ok l ∧
          l ≠ [] ∧ ∀ v ∈ l, v = 1)) ∧
    _parse_n_ft_per_res "1,1,1" = .ok [1, 1, 1] ∧
    (∃ e, _parse_n_ft_per_res "1,2,1" = .error e) := by
  refine ⟨fun s l => ?_, rfl, ⟨_, rfl⟩⟩
  constructor
  · intro h
    rcases hp : pyIntList ((pySplit s ',').filter (fun x => x != "")) with e | vals
    · simp only [_parse_n_ft_per_res, hp] at h
      exact absurd h (by simp)
    · simp only [_parse_n_ft_per_res, hp] at h
      split at h
      · rename_i hc
        injection h with h1
        subst h1
        exact ⟨rfl, hc.1, hc.2⟩
      · simp at h
  · rintro ⟨hp, hne, hall⟩
    simp only [_parse_n_ft_per_res, hp]
    rw [if_pos ⟨hne, hall⟩]

/-- C7 counterexample: the empty string has no parsed values (so, per the
claim, no parsed value differs from 1 and the empty list should be
returned), yet `_parse_n_ft_per_res` fails on it. -/
theorem n_ft_per_res_counterexample :
    ((pySplit "" ',').filter (fun x => x != "")) = [] ∧
    (∃ e, _parse_n_ft_per_res "" = .error e) := ⟨rfl, ⟨_, rfl⟩⟩

/-- C4: the coding-structure build fails with ConfigError whenever
`intra_period` or `p_period` lies outside [0, 255] — in particular whenever
`intra_period = 256`, for every input — and on `foo.png` with both periods 0
it succeeds with `seq_name = "foo"`. -/
theorem coding_structure_bounds_spec :
    (∀ config : RunConfig,
      (¬ (config.enc_cfg.intra_period ≥ 0 ∧ config.enc_cfg.intra_period ≤ 255) ∨
       ¬ (config.enc_cfg.p_period ≥ 0 ∧ config.enc_cfg.p_period ≤ 255)) →
      ∃ e, get_coding_structure_from_args config = .error e) ∧
    (∀ config : RunConfig, config.enc_cfg.intra_period = 256 →
      ∃ e, get_coding_structure_from_args config = .error e) ∧
    get_coding_structure_from_args ⟨"foo.png", ⟨0, 0⟩⟩ = .ok ⟨0, 0, "foo"⟩ := by
  have hout : ∀ config : RunConfig,
      (¬ (config.enc_cfg.intra_period ≥ 0 ∧ config.enc_cfg.intra_period ≤ 255) ∨
       ¬ (config.enc_cfg.p_period ≥ 0 ∧ config.enc_cfg.p_period ≤ 255)) →
      ∃ e, get_coding_structure_from_args config = .error e := by
    intro config h
    unfold get_coding_structure_from_args
    by_cases h1 : config.enc_cfg.intra_period ≥ 0 ∧ config.enc_cfg.intra_period ≤ 255
    · have h2 : ¬ (config.enc_cfg.p_period ≥ 0 ∧ config.enc_cfg.p_period ≤ 255) := by tauto
      rw [if_neg (not_not_intro h1), if_pos h2]
      exact ⟨_, rfl⟩
    · rw [if_pos h1]
      exact ⟨_, rfl⟩
  refine ⟨hout, ?_, rfl⟩
  intro config h256
  refine hout config (Or.inl ?_)
  rw [h256]
  omega

/-- C3 (amended): given in-range periods, the coding-structure build succeeds
iff (input is an image per `_is_image` → both periods are 0); and `_is_image`
matches exactly the lowercase and capitalized spellings of png/jpeg/jpg/ppm —
not arbitrary letter case.  Concrete instances: `b.Png` with intra_period 2
fails, while `c.PNG` (an extension `_is_image` does not recognize) with
intra_period 2 succeeds. -/
theorem coding_structure_image_spec :
    (∀ config : RunConfig,
      (config.enc_cfg.intra_period ≥ 0 ∧ config.enc_cfg.intra_period ≤ 255) →
      (config.enc_cfg.p_period ≥ 0 ∧ config.enc_cfg.p_period ≤ 255) →
      ((∃ r, get_coding_structure_from_args config = .ok r) ↔
        (_is_image config.input = true →
          config.enc_cfg.intra_period = 0 ∧ config.enc_cfg.p_period = 0))) ∧
    (∀ name : String, _is_image name = true ↔
      pathSuffix name ∈
        ([".png", ".Png", ".jpeg", ".Jpeg", ".jpg", ".Jpg", ".ppm", ".Ppm"] : List String)) ∧
    (∃ e, get_coding_structure_from_args ⟨"b.Png", ⟨2, 0⟩⟩ = .error e) ∧
    (∃ r, get_coding_structure_from_args ⟨"c.PNG", ⟨2, 0⟩⟩ = .ok r) := by
  refine ⟨fun config h1 h2 => ?_, fun name => ?_, ⟨_, rfl⟩, ⟨_, rfl⟩⟩
  · unfold get_coding_structure_from_args
    rw [if_neg (not_not_intro h1), if_neg (not_not_intro h2)]
    by_cases hc : _is_image config.input = true ∧
        ¬ (config.enc_cfg.intra_period = 0 ∧ config.enc_cfg.p_period = 0)
    · rw [if_pos hc]
      constructor
      · rintro ⟨r, hr⟩
        simp at hr
      · intro himp
        exact absurd (himp hc.1) hc.2
    · rw [if_neg hc]
      constructor
      · intro _ himg
        by_contra hzero
        exact hc ⟨himg, hzero⟩
      · intro _
        exact ⟨_, rfl⟩
  · simp only [_is_image, possible_file_extension, List.any_cons, List.any_nil,
      pyCapitalize_png, pyCapitalize_jpeg, pyCapitalize_jpg, pyCapitalize_ppm,
      dot_append_png, dot_append_Png, dot_append_jpeg, dot_append_Jpeg,
      dot_append_jpg, dot_append_Jpg, dot_append_ppm, dot_append_Ppm,
      Bool.or_false, Bool.or_eq_true, beq_iff_eq,
      List.mem_cons, List.not_mem_nil, or_false]
    tauto

/-- C3 counterexample: `a.PNG` has a png extension up to letter case, so by
the claim the build with intra_period = 1 must fail; the code does not treat
it as an image (`_is_image` only checks `.png` and `.Png`) and succeeds. -/
theorem coding_structure_image_counterexample :
    spec_is_image_ci "a.PNG" = true ∧
    get_coding_structure_from_args ⟨"a.PNG", ⟨1, 0⟩⟩ = .ok ⟨1, 0, "a"⟩ := ⟨rfl, rfl⟩

/-- C8: `get_wholenet_class` maps exactly the three accepted names to their
classes; every other string makes it — and hence the whole `__main__`
sequence, before `finetune_all` does any loading or training work — fail
with the resolution error, whatever the remaining arguments are. -/
theorem wholenet_class_spec :
    get_wholenet_class "CoolchicWholeNet" = .ok .CoolchicWholeNet ∧
    get_wholenet_class "DeltaWholeNet" = .ok .DeltaWholeNet ∧
    get_wholenet_class "NOWholeNet" = .ok .NOWholeNet ∧
    (∀ s : String, s ≠ "CoolchicWholeNet" → s ≠ "DeltaWholeNet" → s ≠ "NOWholeNet" →
      get_wholenet_class s =
        .error (.valueError ("Invalid WholeNet class. Got " ++ s ++ ".")) ∧
      ∀ (D : FinetuneDeps) (preset : PresetConfig) (fs : Bool) (wp cp : String)
        (images : List String) (iters : List Int),
        main_run D s preset fs wp cp images iters =
          .error (.valueError ("Invalid WholeNet class. Got " ++ s ++ "."))) := by
  refine ⟨rfl, rfl, rfl, fun s h1 h2 h3 => ?_⟩
  have herr : get_wholenet_class s =
      .error (.valueError ("Invalid WholeNet class. Got " ++ s ++ ".")) := by
    simp [get_wholenet_class, h1, h2, h3]
  exact ⟨herr, fun D preset fs wp cp images iters => by simp [main_run, herr]⟩

/-- C10: when training from scratch, `finetune_one_kodak` never consults the
hypernet: its result is the same for any two hypernet values, all other
arguments equal. -/
theorem finetune_from_scratch_hypernet_independent (D : FinetuneDeps) (image : String)
    (preset_config : PresetConfig) (dec_cfg : DecoderConfig) (lmbda : Rat)
    (h1 h2 : D.Hypernet) :
    finetune_one_kodak D image preset_config h1 dec_cfg lmbda true =
      finetune_one_kodak D image preset_config h2 dec_cfg lmbda true := rfl

/-! ### Helper lemmas about the finetuning orchestration -/

theorem finetune_coolchic_eq (D : FinetuneDeps) (img_path : String)
    (preset_config : PresetConfig) (cc_encoder : D.CCEnc) (lmbda : Rat)
    (dec_cfg : DecoderConfig) (ph : TrainerPhase) (rest : List TrainerPhase) (elr : Rat)
    (hph : preset_config.all_phases = ph :: rest) (helr : ph.end_lr = some elr) :
    finetune_coolchic D img_path preset_config cc_encoder lmbda dec_cfg =
      .ok [final_eval_metrics D img_path preset_config cc_encoder lmbda dec_cfg ph elr] := by
  simp only [finetune_coolchic, final_eval_metrics, hph, helr]

theorem finetune_one_kodak_eq (D : FinetuneDeps) (image : String)
    (preset_config : PresetConfig) (hypernet : D.Hypernet) (dec_cfg : DecoderConfig)
    (lmbda : Rat) (fs : Bool) :
    finetune_one_kodak D image preset_config hypernet dec_cfg lmbda fs =
      finetune_coolchic D image preset_config (encoder_for D hypernet dec_cfg fs image)
        lmbda dec_cfg := rfl

theorem phase_with_self (ph : TrainerPhase) : phase_with_max_itr ph ph.max_itr = ph := rfl

theorem phase_with_end_lr (ph : TrainerPhase) (b : Int) :
    (phase_with_max_itr ph b).end_lr = ph.end_lr := rfl

theorem preset_with_self (pname : String) (warm : Warmup) (ph : TrainerPhase)
    (rest : List TrainerPhase) :
    preset_with pname warm ph rest ph.max_itr = ⟨pname, warm, ph :: rest⟩ := rfl

theorem run_budgets_eq (D : FinetuneDeps) (hnet : D.Hypernet) (dec_cfg : DecoderConfig)
    (lmbda : Rat) (fs : Bool) (image : String) (budgets : List Int)
    (pname : String) (warm : Warmup) (ph : TrainerPhase) (rest : List TrainerPhase)
    (elr : Rat) (helr : ph.end_lr = some elr) (x : Int) :
    run_budgets D hnet dec_cfg lmbda fs image budgets (preset_with pname warm ph rest x) =
      .ok (budgets.map (fun b =>
            [runner_row D hnet dec_cfg lmbda fs pname warm ph rest elr (image, b)]),
          preset_with pname warm ph rest (budgets.getLastD x)) := by
  induction budgets generalizing x with
  | nil => rfl
  | cons b more ih =>
    have hset : set_phase0_max_itr (preset_with pname warm ph rest x) b =
        .ok (preset_with pname warm ph rest b) := rfl
    have hrun : finetune_one_kodak D image (preset_with pname warm ph rest b) hnet dec_cfg
        lmbda fs = .ok [final_eval_metrics D image (preset_with pname warm ph rest b)
          (encoder_for D hnet dec_cfg fs image) lmbda dec_cfg (phase_with_max_itr ph b) elr] := by
      rw [finetune_one_kodak_eq]
      exact finetune_coolchic_eq D image (preset_with pname warm ph rest b)
        (encoder_for D hnet dec_cfg fs image) lmbda dec_cfg (phase_with_max_itr ph b) rest elr
        rfl (by rw [phase_with_end_lr, helr])
    simp only [run_budgets, hset, hrun, ih, List.map_cons, List.map_nil,
      List.getLastD_cons, runner_row]

theorem run_images_eq (D : FinetuneDeps) (hnet : D.Hypernet) (dec_cfg : DecoderConfig)
    (lmbda : Rat) (fs : Bool) (images : List String) (budgets : List Int)
    (pname : String) (warm : Warmup) (ph : TrainerPhase) (rest : List TrainerPhase)
    (elr : Rat) (helr : ph.end_lr = some elr) (x : Int) :
    run_images D hnet dec_cfg lmbda fs images budgets (preset_with pname warm ph rest x) =
      .ok (images.flatMap (fun image => budgets.map (fun b =>
            [runner_row D hnet dec_cfg lmbda fs pname warm ph rest elr (image, b)])),
          preset_with pname warm ph rest
            (images.foldl (fun acc _ => budgets.getLastD acc) x)) := by
  induction images generalizing x with
  | nil => rfl
  | cons image more ih =>
    simp only [run_images,
      run_budgets_eq D hnet dec_cfg lmbda fs image budgets pname warm ph rest elr helr x,
      ih, List.flatMap_cons, List.foldl_cons]

theorem finetune_all_eq (D : FinetuneDeps) (pname : String) (warm : Warmup)
    (ph : TrainerPhase) (rest : List TrainerPhase) (x : Int) (fs : Bool)
    (wp cp : String) (cls : WholeNetCls) (images : List String) (budgets : List Int)
    (elr : Rat) (helr : ph.end_lr = some elr) :
    finetune_all D (preset_with pname warm ph rest x) fs wp cp cls images budgets =
      (match pd_concat (images.flatMap (fun image => budgets.map (fun b =>
          [runner_row D (loaded_hnet D wp cp cls) (loaded_cfg D cp).hypernet_cfg.dec_cfg
            (loaded_cfg D cp).lmbda fs pname warm ph rest elr (image, b)]))) with
      | .error e => .error e
      | .ok table =>
        .ok (table, preset_with pname warm ph rest
          (images.foldl (fun acc _ => budgets.getLastD acc) x))) := by
  have h := run_images_eq D (loaded_hnet D wp cp cls) (loaded_cfg D cp).hypernet_cfg.dec_cfg
    (loaded_cfg D cp).lmbda fs images budgets pname warm ph rest elr helr x
  simp only [loaded_hnet, loaded_cfg, resolved_weights] at h
  simp only [finetune_all, loaded_hnet, loaded_cfg, resolved_weights, h]

theorem pd_concat_ok {Row : Type} (tables : List (List Row)) (h : tables ≠ []) :
    pd_concat tables = .ok tables.flatten := by
  cases tables with
  | nil => exact absurd rfl h
  | cons t ts => rfl

theorem flatten_map_singleton {α β : Type} (l : List α) (f : α → β) :
    (l.map (fun a => [f a])).flatten = l.map f := by
  induction l with
  | nil => rfl
  | cons a t ih => simp [ih]

theorem pairs_map_chunks {β : Type} (images : List String) (budgets : List Int)
    (g : String × Int → β) :
    images.flatMap (fun image => budgets.map (fun b => [g (image, b)])) =
      (image_budget_pairs images budgets).map (fun p => [g p]) := by
  simp only [image_budget_pairs, List.map_flatMap, List.map_map]
  rfl

theorem image_budget_pairs_length (images : List String) (budgets : List Int) :
    (image_budget_pairs images budgets).length = images.length * budgets.length :=
  List.length_product images budgets

theorem image_budget_pairs_nodup (images : List String) (budgets : List Int)
    (h1 : images.Nodup) (h2 : budgets.Nodup) :
    (image_budget_pairs images budgets).Nodup :=
  List.Nodup.product h1 h2

theorem image_budget_pairs_ne_nil (images : List String) (budgets : List Int)
    (himg : images ≠ []) (hbud : budgets ≠ []) :
    image_budget_pairs images budgets ≠ [] := by
  obtain ⟨i, m, rfl⟩ := List.exists_cons_of_ne_nil himg
  obtain ⟨b, t, rfl⟩ := List.exists_cons_of_ne_nil hbud
  simp [image_budget_pairs]

theorem getLastD_of_ne_nil (budgets : List Int) (hbud : budgets ≠ []) (a : Int) :
    budgets.getLastD a = budgets.getLast hbud := by
  cases budgets with
  | nil => exact absurd rfl hbud
  | cons b t =>
    rw [List.getLastD_eq_getLast?, List.getLast?_eq_getLast (b :: t) hbud]
    rfl

theorem foldl_getLastD_const (budgets : List Int) (c : Int)
    (hc : ∀ a : Int, budgets.getLastD a = c) (l : List String) :
    ∀ a : Int, l.foldl (fun acc _ => budgets.getLastD acc) (budgets.getLastD a) = c := by
  induction l with
  | nil => intro a; exact hc a
  | cons s t ih =>
    intro a
    rw [List.foldl_cons]
    exact ih (budgets.getLastD a)

theorem foldl_getLastD (images : List String) (budgets : List Int) (x : Int)
    (himg : images ≠ []) (hbud : budgets ≠ []) :
    images.foldl (fun acc _ => budgets.getLastD acc) x = budgets.getLast hbud := by
  obtain ⟨i0, more, rfl⟩ := List.exists_cons_of_ne_nil himg
  rw [List.foldl_cons]
  exact foldl_getLastD_const budgets (budgets.getLast hbud)
    (fun a => getLastD_of_ne_nil budgets hbud a) more x

/-! ### Claim theorems about the finetuning orchestration (finetune.py) -/

/-- C2: every invocation of `finetune_coolchic` that returns normally
returns a list with exactly one metrics record: the metrics of the final
(post-quantization) evaluation. -/
theorem finetune_coolchic_single_metrics (D : FinetuneDeps) (img_path : String)
    (preset_config : PresetConfig) (cc_encoder : D.CCEnc) (lmbda : Rat)
    (dec_cfg : DecoderConfig) (ph : TrainerPhase) (rest : List TrainerPhase) (elr : Rat)
    (hph : preset_config.all_phases = ph :: rest) (helr : ph.end_lr = some elr) :
    finetune_coolchic D img_path preset_config cc_encoder lmbda dec_cfg =
      .ok [final_eval_metrics D img_path preset_config cc_encoder lmbda dec_cfg ph elr] :=
  finetune_coolchic_eq D img_path preset_config cc_encoder lmbda dec_cfg ph rest elr hph helr

/-- Witness for C2 at a concrete input. -/
theorem finetune_coolchic_single_metrics_witness :
    finetune_coolchic unitDeps "kodim01.png" samplePreset () 1 sampleDecCfg =
      .ok [final_eval_metrics unitDeps "kodim01.png" samplePreset () 1 sampleDecCfg
        samplePhase (1 / 100000)] :=
  finetune_coolchic_single_metrics unitDeps "kodim01.png" samplePreset () 1 sampleDecCfg
    samplePhase [] (1 / 100000) rfl rfl

/-- C1 (amended): on a non-empty dataset with a non-empty duplicate-free
budget list, `finetune_all` invokes the per-image runner exactly once per
(image, budget) pair — the table equals the map of the per-pair runner row
over the pair list, which visits budgets in the given order within each
image and contains no duplicate pair — and the table has exactly
N × B rows. -/
theorem finetune_all_table_spec (D : FinetuneDeps) (pname : String) (warm : Warmup)
    (ph : TrainerPhase) (rest : List TrainerPhase) (fs : Bool) (wp cp : String)
    (cls : WholeNetCls) (images : List String) (budgets : List Int) (elr : Rat)
    (helr : ph.end_lr = some elr) (himg : images ≠ []) (hbud : budgets ≠ [])
    (hnd1 : images.Nodup) (hnd2 : budgets.Nodup) :
    ∃ preset1,
      finetune_all D ⟨pname, warm, ph :: rest⟩ fs wp cp cls images budgets =
        .ok ((image_budget_pairs images budgets).map
          (runner_row D (loaded_hnet D wp cp cls) (loaded_cfg D cp).hypernet_cfg.dec_cfg
            (loaded_cfg D cp).lmbda fs pname warm ph rest elr), preset1) ∧
      ((image_budget_pairs images budgets).map
          (runner_row D (loaded_hnet D wp cp cls) (loaded_cfg D cp).hypernet_cfg.dec_cfg
            (loaded_cfg D cp).lmbda fs pname warm ph rest elr)).length =
        images.length * budgets.length ∧
      (image_budget_pairs images budgets).Nodup := by
  have hmain := finetune_all_eq D pname warm ph rest ph.max_itr fs wp cp cls images budgets
    elr helr
  rw [preset_with_self] at hmain
  have hne : ((image_budget_pairs images budgets).map
      (fun p => [runner_row D (loaded_hnet D wp cp cls) (loaded_cfg D cp).hypernet_cfg.dec_cfg
        (loaded_cfg D cp).lmbda fs pname warm ph rest elr p])) ≠ [] := by
    intro hcontra
    exact image_budget_pairs_ne_nil images budgets himg hbud (List.map_eq_nil_iff.mp hcontra)
  simp only [pairs_map_chunks images budgets
      (runner_row D (loaded_hnet D wp cp cls) (loaded_cfg D cp).hypernet_cfg.dec_cfg
        (loaded_cfg D cp).lmbda fs pname warm ph rest elr),
    pd_concat_ok _ hne, flatten_map_singleton] at hmain
  refine ⟨_, hmain, ?_, image_budget_pairs_nodup images budgets hnd1 hnd2⟩
  rw [List.length_map, image_budget_pairs_length]

/-- Witness for C1 at a concrete input: two images, two budgets. -/
theorem finetune_all_table_spec_witness :
    ∃ preset1,
      finetune_all unitDeps ⟨"", ⟨⟩, [samplePhase]⟩ false "w.pt" "c.yaml"
          WholeNetCls.CoolchicWholeNet ["a.png", "b.png"] [100, 200] =
        .ok ((image_budget_pairs ["a.png", "b.png"] [100, 200]).map
          (runner_row unitDeps
            (loaded_hnet unitDeps "w.pt" "c.yaml" WholeNetCls.CoolchicWholeNet)
            (loaded_cfg unitDeps "c.yaml").hypernet_cfg.dec_cfg
            (loaded_cfg unitDeps "c.yaml").lmbda false "" ⟨⟩ samplePhase [] (1 / 100000)),
          preset1) ∧
      ((image_budget_pairs ["a.png", "b.png"] [100, 200]).map
          (runner_row unitDeps
            (loaded_hnet unitDeps "w.pt" "c.yaml" WholeNetCls.CoolchicWholeNet)
            (loaded_cfg unitDeps "c.yaml").hypernet_cfg.dec_cfg
            (loaded_cfg unitDeps "c.yaml").lmbda false "" ⟨⟩ samplePhase [] (1 / 100000))).length =
        (["a.png", "b.png"] : List String).length * ([100, 200] : List Int).length ∧
      (image_budget_pairs ["a.png", "b.png"] [100, 200]).Nodup :=
  finetune_all_table_spec unitDeps "" ⟨⟩ samplePhase [] false "w.pt" "c.yaml"
    WholeNetCls.CoolchicWholeNet ["a.png", "b.png"] [100, 200] (1 / 100000) rfl
    (by decide) (by decide) (by decide) (by decide)

/-- C1 counterexample: on an empty dataset (N = 0) the claim promises a
table with 0 × B = 0 rows, but `finetune_all` fails instead, because
`pandas.concat` raises on an empty list of tables. -/
theorem finetune_all_empty_counterexample :
    finetune_all unitDeps samplePreset false "w.pt" "c.yaml" WholeNetCls.CoolchicWholeNet
        [] [100] =
      .error (.valueError "No objects to concatenate") := rfl

/-- C9: `finetune_all` returns the caller's preset with `all_phases[0].max_itr`
overwritten by the last element of `n_iterations` and every other field —
the preset name, the warmup, the other phases and the remaining fields of
the first phase — unchanged. -/
theorem finetune_all_preset_mutation (D : FinetuneDeps) (pname : String) (warm : Warmup)
    (ph : TrainerPhase) (rest : List TrainerPhase) (fs : Bool) (wp cp : String)
    (cls : WholeNetCls) (images : List String) (budgets : List Int) (elr : Rat)
    (helr : ph.end_lr = some elr) (himg : images ≠ []) (hbud : budgets ≠ []) :
    ∃ table,
      finetune_all D ⟨pname, warm, ph :: rest⟩ fs wp cp cls images budgets =
        .ok (table, ⟨pname, warm, { ph with max_itr := budgets.getLast hbud } :: rest⟩) := by
  have hmain := finetune_all_eq D pname warm ph rest ph.max_itr fs wp cp cls images budgets
    elr helr
  rw [preset_with_self] at hmain
  have hne : (images.flatMap (fun image => budgets.map (fun b =>
      [runner_row D (loaded_hnet D wp cp cls) (loaded_cfg D cp).hypernet_cfg.dec_cfg
        (loaded_cfg D cp).lmbda fs pname warm ph rest elr (image, b)]))) ≠ [] := by
    rw [pairs_map_chunks]
    intro hcontra
    exact image_budget_pairs_ne_nil images budgets himg hbud (List.map_eq_nil_iff.mp hcontra)
  simp only [pd_concat_ok _ hne,
    foldl_getLastD images budgets ph.max_itr himg hbud] at hmain
  exact ⟨_, hmain⟩

/-- Witness for C9 at a concrete input: after the run the first phase's
`max_itr` is 200, the last budget. -/
theorem finetune_all_preset_mutation_witness :
    ∃ table,
      finetune_all unitDeps ⟨"", ⟨⟩, [samplePhase]⟩ false "w.pt" "c.yaml"
          WholeNetCls.CoolchicWholeNet ["a.png"] [100, 200] =
        .ok (table, ⟨"", ⟨⟩, [{ samplePhase with max_itr := 200 }]⟩) := by
  have h := finetune_all_preset_mutation unitDeps "" ⟨⟩ samplePhase [] false "w.pt" "c.yaml"
    WholeNetCls.CoolchicWholeNet ["a.png"] [100, 200] (1 / 100000) rfl
    (by decide) (by decide)
  exact h

end CoolChic
